import Mathlib

/-!
Shallow embedding of the Scribbly client-side wizard (saishagoel27/scribbly).

The embedded code comes from:
* `src/frontend/src/app.tsx` — the `App` component's session state and its
  update functions (`updateFileData`, `updateStudyConfig`, `startProcessing`,
  `completeProcessing`, `resetSession`, `goToStep`), together with the
  localStorage persistence effects;
* `src/frontend/pages/ProcessingPage.tsx` — the processing request lifecycle
  (`handleStartProcessing`), its four-phase progress indicator and error
  handling;
* `src/unnamed/part_000` — `StudyPage` (flashcard study state) and
  `ConfigurePage` (`getEstimatedTime`);
* `src/unnamed/part_002` — `UploadPage` (`handleFileUpload`).

TypeScript `number` is modelled by `Int` (all values that occur in the modelled
code are integers) except where a computation is genuinely fractional, in which
case exact rationals (`Rat`) are used; the JavaScript `Math.round` is modelled
by `jsRound` (round half toward positive infinity).  Optional / nullable
TypeScript fields are modelled by `Option`.
-/

namespace Scribbly

/-! ## Data model (the TypeScript interfaces) -/

/-- `processingComplexity: 'low' | 'medium' | 'high'` -/
inductive Complexity
  | low
  | medium
  | high
deriving DecidableEq, Repr

/-- `studyMode: 'flashcards' | 'summary' | 'both'` -/
inductive StudyMode
  | flashcards
  | summary
  | both
deriving DecidableEq, Repr

/-- `difficultyFocus?: 'basic' | 'mixed' | 'advanced' | 'application'` -/
inductive DifficultyFocus
  | basic
  | mixed
  | advanced
  | application
deriving DecidableEq, Repr

/-- `difficulty: 'basic' | 'intermediate' | 'advanced'` on a flashcard -/
inductive CardDifficulty
  | basic
  | intermediate
  | advanced
deriving DecidableEq, Repr

/-- A browser `File` object, or what is left of one after a JSON round trip.
`JSON.stringify` serializes a `File` as `{}` (its properties are not
own-enumerable), and `JSON.parse` of `{}` yields a plain empty object with no
file contents; `emptyObject` models that degenerate value. -/
inductive FileHandle
  | mk (name : String) (content : String)
  | emptyObject
deriving DecidableEq, Repr

/-- The `metadata` field of the `FileData` interface. -/
structure FileMetadata where
  filename : String
  size : Nat
  type : String
  estimatedPages : Nat
  estimatedReadingTime : String
  processingComplexity : Complexity
deriving DecidableEq, Repr

/-- The `FileData` interface. -/
structure FileData where
  file : FileHandle
  metadata : FileMetadata
deriving DecidableEq, Repr

/-- The `StudyConfig` interface (`flashcardCount` and `difficultyFocus` are
optional). -/
structure StudyConfig where
  studyMode : StudyMode
  flashcardCount : Option Nat
  difficultyFocus : Option DifficultyFocus
deriving DecidableEq, Repr

/-- One element of the `flashcards` array in `ProcessingResults`. -/
structure Flashcard where
  question : String
  answer : String
  concept : String
  difficulty : CardDifficulty
  id : String
deriving DecidableEq, Repr

/-- The `summary` field of `ProcessingResults`. -/
structure Summary where
  main : String
  keyPoints : List String
  concepts : List String
deriving DecidableEq, Repr

/-- The `processingMetrics` field of `ProcessingResults`; `confidence` is a
fractional number, modelled exactly as a rational. -/
structure ProcessingMetrics where
  processingTime : Nat
  confidence : Rat
  method : String
deriving DecidableEq, Repr

/-- The `ProcessingResults` interface. -/
structure ProcessingResults where
  flashcards : Option (List Flashcard)
  summary : Option Summary
  processingMetrics : ProcessingMetrics
  timestamp : String
deriving DecidableEq, Repr

/-- The `AppState` interface of `app.tsx`. -/
structure AppState where
  currentStep : Int
  fileData : Option FileData
  studyConfig : Option StudyConfig
  processingResults : Option ProcessingResults
  isProcessing : Bool
deriving DecidableEq, Repr

/-! ## App component state transitions (`app.tsx`) -/

/-- The `useState` initializer of `appState` in `App`. -/
def initialState : AppState :=
  { currentStep := 1
    fileData := none
    studyConfig := none
    processingResults := none
    isProcessing := false }

/-- `updateFileData` (app.tsx line 332): spread previous state, set `fileData`
and `currentStep: 2`. -/
def updateFileData (s : AppState) (fileData : FileData) : AppState :=
  { s with fileData := some fileData, currentStep := 2 }

/-- `updateStudyConfig` (app.tsx line 340): spread previous state, set
`studyConfig` and `currentStep: 3`. -/
def updateStudyConfig (s : AppState) (studyConfig : StudyConfig) : AppState :=
  { s with studyConfig := some studyConfig, currentStep := 3 }

/-- `startProcessing` (app.tsx line 348): set `isProcessing: true`. -/
def startProcessing (s : AppState) : AppState :=
  { s with isProcessing := true }

/-- `completeProcessing` (app.tsx line 355): store the results, clear
`isProcessing`, set `currentStep: 4`. -/
def completeProcessing (s : AppState) (results : ProcessingResults) : AppState :=
  { s with
    processingResults := some results
    isProcessing := false
    currentStep := 4 }

/-- `resetSession` (app.tsx line 364): back to the initial state. -/
def resetSession (_s : AppState) : AppState :=
  initialState

/-- `goToStep` (app.tsx line 375): only allow going back to completed steps. -/
def goToStep (s : AppState) (step : Int) : AppState :=
  if step ≤ s.currentStep then
    { s with currentStep := step }
  else
    s

/-- App states reachable through the `App` component's update functions. -/
inductive AppReachable : AppState → Prop
  | init : AppReachable initialState
  | fileData (s fd) : AppReachable s → AppReachable (updateFileData s fd)
  | config (s c) : AppReachable s → AppReachable (updateStudyConfig s c)
  | start (s) : AppReachable s → AppReachable (startProcessing s)
  | complete (s r) : AppReachable s → AppReachable (completeProcessing s r)
  | reset (s) : AppReachable s → AppReachable (resetSession s)
  | goto (s n) : AppReachable s → AppReachable (goToStep s n)

/-! ## Persistence (`app.tsx` localStorage effects)

`localStorage.setItem('scribbly-state', JSON.stringify(appState))` runs after
every state change, and on mount the saved value is `JSON.parse`d and restored
with `setAppState(parsed)`.  Every field of `AppState` consists of JSON-safe
data (strings, numbers, booleans, arrays, plain objects) except the nested
`fileData.file`, a browser `File` object: `JSON.stringify` turns it into `{}`,
so the parsed state carries a plain empty object where the `File` used to be.
-/

/-- What `JSON.stringify` retains of a `FileData`: the metadata survives, the
`File` object serializes as `{}` and thus carries no information. -/
structure PersistedFileData where
  metadata : FileMetadata
deriving DecidableEq, Repr

/-- The JSON image of an `AppState` under `JSON.stringify`. -/
structure PersistedState where
  currentStep : Int
  fileData : Option PersistedFileData
  studyConfig : Option StudyConfig
  processingResults : Option ProcessingResults
  isProcessing : Bool
deriving DecidableEq, Repr

/-- `JSON.stringify(appState)`: every field is JSON-faithful except the nested
`File` object, which is dropped (serialized as `{}`). -/
def persistState (s : AppState) : PersistedState :=
  { currentStep := s.currentStep
    fileData := s.fileData.map fun fd => { metadata := fd.metadata }
    studyConfig := s.studyConfig
    processingResults := s.processingResults
    isProcessing := s.isProcessing }

/-- `JSON.parse` of the saved string followed by `setAppState(parsed)`: the
parsed `fileData.file` is the plain empty object `{}`. -/
def restoreState (p : PersistedState) : AppState :=
  { currentStep := p.currentStep
    fileData := p.fileData.map fun pfd =>
      { file := FileHandle.emptyObject, metadata := pfd.metadata }
    studyConfig := p.studyConfig
    processingResults := p.processingResults
    isProcessing := p.isProcessing }

/-- A model of `localStorage`: a keyed store of persisted states. -/
def Store := List (String × PersistedState)

/-- `localStorage.setItem`. -/
def setItem (store : Store) (key : String) (v : PersistedState) : Store :=
  (key, v) :: (List.filter (fun kv => kv.1 ≠ key) store)

/-- `localStorage.getItem`. -/
def getItem (store : Store) (key : String) : Option PersistedState :=
  (List.find? (fun kv => kv.1 = key) store).map (fun kv => kv.2)

/-- The save effect (app.tsx line 327): persist under key `'scribbly-state'`
after every state change. -/
def saveState (store : Store) (s : AppState) : Store :=
  setItem store "scribbly-state" (persistState s)

/-! ## Concrete demo values (used by counterexamples and witnesses) -/

/-- A concrete file metadata record. -/
def demoMetadata : FileMetadata :=
  { filename := "notes.pdf"
    size := 2048
    type := ".pdf"
    estimatedPages := 3
    estimatedReadingTime := "5 min"
    processingComplexity := Complexity.low }

/-- A concrete uploaded file: a genuine in-memory `File` object. -/
def demoFileData : FileData :=
  { file := FileHandle.mk "notes.pdf" "lecture notes text"
    metadata := demoMetadata }

/-- A concrete study configuration. -/
def demoConfig : StudyConfig :=
  { studyMode := StudyMode.both
    flashcardCount := some 10
    difficultyFocus := some DifficultyFocus.mixed }

/-- The app state after uploading `demoFileData` from the initial state. -/
def demoUploadedState : AppState :=
  updateFileData initialState demoFileData

/-- The app state after additionally choosing `demoConfig`. -/
def demoConfiguredState : AppState :=
  updateStudyConfig demoUploadedState demoConfig

/-! ## Theorems for claims C1, C2, C10 -/

/-- **C1.** For every app state and every step number `n`, `goToStep n` sets
`currentStep` to `n` when `n` is at most the current step, leaves the entire
state unchanged when `n` exceeds the current step, and never increases
`currentStep`. -/
theorem goToStep_only_backward (s : AppState) (n : Int) :
    (n ≤ s.currentStep → goToStep s n = { s with currentStep := n }) ∧
    (s.currentStep < n → goToStep s n = s) ∧
    (goToStep s n).currentStep ≤ s.currentStep := by
  refine ⟨fun h => ?_, fun h => ?_, ?_⟩
  · simp [goToStep, h]
  · simp [goToStep, not_le.mpr h]
  · by_cases h : n ≤ s.currentStep
    · simp [goToStep, h]
    · simp [goToStep, h]

/-- Witness for C1 at a concrete state with `currentStep = 4`. -/
theorem goToStep_only_backward_witness :
    goToStep { initialState with currentStep := 4 } 2
        = { initialState with currentStep := 2 } ∧
    goToStep { initialState with currentStep := 4 } 7
        = { initialState with currentStep := 4 } := by
  constructor
  · exact (goToStep_only_backward { initialState with currentStep := 4 } 2).1
      (by decide)
  · exact (goToStep_only_backward { initialState with currentStep := 4 } 7).2.1
      (by decide)

/-- **C2.** Each stage-completion operation writes its payload into the shared
store and advances the step counter: `updateFileData` stores the file data and
sets step 2, `updateStudyConfig` stores the configuration and sets step 3,
`completeProcessing` stores the results and sets step 4, from every prior
state. -/
theorem stage_completion_advances (s : AppState) (fd : FileData)
    (c : StudyConfig) (r : ProcessingResults) :
    updateFileData s fd = { s with fileData := some fd, currentStep := 2 } ∧
    updateStudyConfig s c = { s with studyConfig := some c, currentStep := 3 } ∧
    completeProcessing s r
      = { s with processingResults := some r, isProcessing := false,
                 currentStep := 4 } := by
  exact ⟨rfl, rfl, rfl⟩

/-- **C10.** `completeProcessing` modifies only `processingResults`,
`isProcessing` and `currentStep`; `fileData` and `studyConfig` are unchanged
for every prior state. -/
theorem completeProcessing_frame (s : AppState) (r : ProcessingResults) :
    completeProcessing s r
      = { s with processingResults := some r, isProcessing := false,
                 currentStep := 4 } ∧
    (completeProcessing s r).fileData = s.fileData ∧
    (completeProcessing s r).studyConfig = s.studyConfig := by
  exact ⟨rfl, rfl, rfl⟩

/-! ## Theorems for claim C3 (persistence) -/

/-- **C3, counterexample.** The reachable state obtained by uploading a file is
not restored to itself: the in-memory `File` object inside `fileData` does not
survive `JSON.stringify`/`JSON.parse`, so persist-then-restore is not a round
trip on every reachable state. -/
theorem persist_restore_roundtrip_fails :
    AppReachable demoUploadedState ∧
    restoreState (persistState demoUploadedState) ≠ demoUploadedState := by
  constructor
  · exact AppReachable.fileData initialState demoFileData AppReachable.init
  · decide

/-- **C3, amended.** The state is persisted under the localStorage key
`'scribbly-state'` after every state change, and restoring the persisted form
reproduces every enumerated field (current step, file metadata, configuration,
processing results, processing flag); only the in-memory file handle inside
`fileData` is not reproduced — it deserializes to an empty object.  In
particular the round trip is exact precisely when no file has been stored. -/
theorem persist_restore_drops_file_handle (s : AppState) (store : Store) :
    getItem (saveState store s) "scribbly-state" = some (persistState s) ∧
    restoreState (persistState s)
      = { s with fileData := s.fileData.map fun fd =>
            { fd with file := FileHandle.emptyObject } } ∧
    (s.fileData = none → restoreState (persistState s) = s) := by
  refine ⟨?_, ?_, ?_⟩
  · simp [saveState, setItem, getItem]
  · cases s with
    | mk step fd cfg res busy =>
      cases fd <;> rfl
  · intro h
    cases s with
    | mk step fd cfg res busy =>
      cases fd with
      | none => rfl
      | some fd => simp at h

/-- Witness for the amended C3 at the initial state and an empty store. -/
theorem persist_restore_drops_file_handle_witness :
    getItem (saveState [] initialState) "scribbly-state"
      = some (persistState initialState) ∧
    restoreState (persistState initialState) = initialState := by
  refine ⟨(persist_restore_drops_file_handle initialState []).1, ?_⟩
  exact (persist_restore_drops_file_handle initialState []).2.2 rfl

/-! ## StudyPage (`src/unnamed/part_000`, flashcard study state)

Component state: `currentCardIndex`, `isFlipped`, and `studyProgress`, a
JavaScript object mapping card ids to `'unseen' | 'learning' | 'mastered'`,
modelled as a function `String → Option Tag` (absent key ↦ `none`).
-/

/-- The per-card progress tag. -/
inductive Tag
  | unseen
  | learning
  | mastered
deriving DecidableEq, Repr

/-- The argument of `handleCardAction`. -/
inductive CardAction
  | again
  | hard
  | good
  | easy
deriving DecidableEq, Repr

/-- The `StudyPage` component state relevant to the flashcard lifecycle. -/
structure StudyState where
  currentCardIndex : Nat
  isFlipped : Bool
  studyProgress : String → Option Tag

/-- `hasFlashcards = results.flashcards && results.flashcards.length > 0`. -/
def hasFlashcards (fcs : Option (List Flashcard)) : Bool :=
  match fcs with
  | some l => decide (0 < l.length)
  | none => false

/-- The fresh progress map built by the initialization `useEffect` and by
`resetCards`: every card id maps to `'unseen'`. -/
def freshProgress (fcs : Option (List Flashcard)) : String → Option Tag :=
  fun id =>
    if (fcs.getD []).any (fun card => card.id = id) then some Tag.unseen
    else none

/-- The `StudyPage` state on entering the study stage: index 0, not flipped,
and (when there are flashcards) the initialization effect has tagged every
card `'unseen'`. -/
def initStudyState (fcs : Option (List Flashcard)) : StudyState :=
  { currentCardIndex := 0
    isFlipped := false
    studyProgress :=
      if hasFlashcards fcs then freshProgress fcs else fun _ => none }

/-- `handleCardAction` (part_000 line 49).  Returns `none` when the code would
crash: `results.flashcards![currentCardIndex]` is `undefined` out of bounds and
reading `.id` of it throws. -/
def handleCardAction (fcs : Option (List Flashcard)) (s : StudyState)
    (action : CardAction) : Option StudyState :=
  if !hasFlashcards fcs then some s
  else
    let cards := fcs.getD []
    match cards.get? s.currentCardIndex with
    | none => none
    | some currentCard =>
      let tag : Tag :=
        match action with
        | CardAction.again | CardAction.hard => Tag.learning
        | CardAction.good | CardAction.easy => Tag.mastered
      let progress := fun id =>
        if id = currentCard.id then some tag else s.studyProgress id
      let s := { s with studyProgress := progress }
      some <|
        if s.currentCardIndex < cards.length - 1 then
          { s with currentCardIndex := s.currentCardIndex + 1, isFlipped := false }
        else s

/-- `resetCards` (part_000 line 79): index 0, unflipped, and (when there are
flashcards) every card back to `'unseen'`. -/
def resetCards (fcs : Option (List Flashcard)) (s : StudyState) : StudyState :=
  { currentCardIndex := 0
    isFlipped := false
    studyProgress :=
      if hasFlashcards fcs then freshProgress fcs else s.studyProgress }

/-- `StudyPage` states reachable by any sequence of card actions, resets and
card flips from the initial state. -/
inductive StudyReachable (fcs : Option (List Flashcard)) : StudyState → Prop
  | init : StudyReachable fcs (initStudyState fcs)
  | step (s s' a) : StudyReachable fcs s → handleCardAction fcs s a = some s' →
      StudyReachable fcs s'
  | reset (s) : StudyReachable fcs s → StudyReachable fcs (resetCards fcs s)
  | flip (s b) : StudyReachable fcs s →
      StudyReachable fcs { s with isFlipped := b }

/-- First demo flashcard. -/
def demoCard1 : Flashcard :=
  { question := "Q1", answer := "A1", concept := "K1",
    difficulty := CardDifficulty.basic, id := "id1" }

/-- Second demo flashcard. -/
def demoCard2 : Flashcard :=
  { question := "Q2", answer := "A2", concept := "K2",
    difficulty := CardDifficulty.advanced, id := "id2" }

/-- Demo flashcards used by study-stage witnesses. -/
def demoCards : List Flashcard := [demoCard1, demoCard2]

/-! ## Theorems for claims C7 and C9 -/

/-- **C7.** Tags are drawn from unseen/learning/mastered (the type `Tag`); on
entering the study stage every card is tagged `'unseen'`; from any state (hence
after any sequence of card actions) an `'again'` or `'hard'` action tags the
current card `'learning'`, a `'good'` or `'easy'` action tags it `'mastered'`,
and `resetCards` returns every card to `'unseen'`. -/
theorem card_tags_lifecycle (cards : List Flashcard) (s : StudyState)
    (c : Flashcard) (hc : cards.get? s.currentCardIndex = some c) :
    (∀ c' ∈ cards,
      (initStudyState (some cards)).studyProgress c'.id = some Tag.unseen) ∧
    (∀ s', handleCardAction (some cards) s CardAction.again = some s' →
      s'.studyProgress c.id = some Tag.learning) ∧
    (∀ s', handleCardAction (some cards) s CardAction.hard = some s' →
      s'.studyProgress c.id = some Tag.learning) ∧
    (∀ s', handleCardAction (some cards) s CardAction.good = some s' →
      s'.studyProgress c.id = some Tag.mastered) ∧
    (∀ s', handleCardAction (some cards) s CardAction.easy = some s' →
      s'.studyProgress c.id = some Tag.mastered) ∧
    (∀ c' ∈ cards,
      (resetCards (some cards) s).studyProgress c'.id = some Tag.unseen) := by
  have hlen : 0 < cards.length :=
    Nat.lt_of_lt_of_le (Nat.zero_lt_succ _)
      (Nat.succ_le_of_lt (List.get?_eq_some.mp hc).1)
  have hhas : hasFlashcards (some cards) = true := by
    simp [hasFlashcards]; omega
  have hfresh : ∀ c' ∈ cards, freshProgress (some cards) c'.id = some Tag.unseen := by
    intro c' hmem
    simp only [freshProgress, Option.getD]
    rw [if_pos]
    exact List.any_eq_true.mpr ⟨c', hmem, by simp⟩
  have haction : ∀ (a : CardAction) (t : Tag),
      (t = match a with
        | CardAction.again | CardAction.hard => Tag.learning
        | CardAction.good | CardAction.easy => Tag.mastered) →
      ∀ s', handleCardAction (some cards) s a = some s' →
        s'.studyProgress c.id = some t := by
    intro a t ht s' hs'
    simp only [handleCardAction, hhas, Bool.not_true, Bool.false_eq_true,
      if_false, Option.getD, hc] at hs'
    split at hs' <;>
      (cases hs'; simp [ht])
  refine ⟨?_, haction _ _ rfl, haction _ _ rfl, haction _ _ rfl,
    haction _ _ rfl, ?_⟩
  · intro c' hmem
    simpa [initStudyState, hhas] using hfresh c' hmem
  · intro c' hmem
    simpa [resetCards, hhas] using hfresh c' hmem

/-- Witness for C7 on `demoCards`: acting `'again'` on the first card tags it
`'learning'`, and initially the second card is `'unseen'`. -/
theorem card_tags_lifecycle_witness :
    ((handleCardAction (some demoCards) (initStudyState (some demoCards))
        CardAction.again).getD
          (initStudyState (some demoCards))).studyProgress "id1"
      = some Tag.learning ∧
    (initStudyState (some demoCards)).studyProgress "id2" = some Tag.unseen := by
  have h := card_tags_lifecycle demoCards (initStudyState (some demoCards))
    demoCard1 rfl
  constructor
  · exact h.2.1 _ rfl
  · exact h.1 demoCard2 (by simp [demoCards])

/-- The index stays strictly below the number of cards on every reachable
study state. -/
theorem studyReachable_index_lt (cards : List Flashcard)
    (hne : cards ≠ []) (s : StudyState)
    (hr : StudyReachable (some cards) s) :
    s.currentCardIndex < cards.length := by
  have hlen : 0 < cards.length := List.length_pos.mpr hne
  have hhas : hasFlashcards (some cards) = true := by
    simp [hasFlashcards]; omega
  induction hr with
  | init => simpa [initStudyState] using hlen
  | step s s' a _ hstep ih =>
    simp only [handleCardAction, hhas, Bool.not_true, Bool.false_eq_true,
      if_false, Option.getD] at hstep
    cases hget : cards.get? s.currentCardIndex with
    | none => rw [hget] at hstep; cases hstep
    | some c =>
      rw [hget] at hstep
      simp only [] at hstep
      by_cases hadv : s.currentCardIndex < cards.length - 1
      · rw [if_pos hadv] at hstep
        cases hstep
        show s.currentCardIndex + 1 < cards.length
        omega
      · rw [if_neg hadv] at hstep
        cases hstep
        exact ih
  | reset s _ _ => simpa [resetCards] using hlen
  | flip s b _ ih => simpa using ih

/-- **C9.** For every non-empty flashcard list and every state reachable by a
sequence of card actions, `currentCardIndex` stays within
`0 ≤ currentCardIndex ≤ length - 1`, and `handleCardAction` never indexes past
the last card: it always succeeds and its result again satisfies the bound
(the index advances only while `currentCardIndex < length - 1`). -/
theorem currentCardIndex_in_bounds (cards : List Flashcard)
    (hne : cards ≠ []) (s : StudyState)
    (hr : StudyReachable (some cards) s) :
    s.currentCardIndex ≤ cards.length - 1 ∧
    ∀ a, ∃ s', handleCardAction (some cards) s a = some s' ∧
      s'.currentCardIndex ≤ cards.length - 1 := by
  have hlt := studyReachable_index_lt cards hne s hr
  have hhas : hasFlashcards (some cards) = true := by
    simp [hasFlashcards]; omega
  refine ⟨by omega, fun a => ?_⟩
  have hget : cards.get? s.currentCardIndex
      = some (cards.get ⟨s.currentCardIndex, hlt⟩) :=
    List.get?_eq_get hlt
  simp only [handleCardAction, hhas, Bool.not_true, Bool.false_eq_true,
    if_false, Option.getD, hget]
  split
  · exact ⟨_, rfl, by simp; omega⟩
  · exact ⟨_, rfl, by simp; omega⟩

/-- Witness for C9 on `demoCards` at the initial study state. -/
theorem currentCardIndex_in_bounds_witness :
    (initStudyState (some demoCards)).currentCardIndex ≤ demoCards.length - 1 :=
  (currentCardIndex_in_bounds demoCards (by simp [demoCards])
    (initStudyState (some demoCards)) StudyReachable.init).1

/-! ## ConfigurePage (`src/unnamed/part_000`, estimated processing time) -/

/-- JavaScript `Math.round`: round half toward positive infinity. -/
def jsRound (q : Rat) : Int := (q + 1/2).floor

/-- `jsRound` agrees with the mathematical floor of `q + 1/2`. -/
theorem jsRound_eq_floor (q : Rat) : jsRound q = ⌊q + 1/2⌋ := rfl

/-- `jsRound` is monotone. -/
theorem jsRound_mono {q r : Rat} (h : q ≤ r) : jsRound q ≤ jsRound r := by
  rw [jsRound_eq_floor, jsRound_eq_floor]
  exact Int.floor_mono (by linarith)

/-- `getEstimatedTime` of `ConfigurePage` (part_000 line 406): base time from
the file's processing complexity, times a study-mode multiplier, times a
flashcard-count multiplier, rounded. -/
def getEstimatedTime (fileData : FileData) (studyMode : StudyMode)
    (flashcardCount : Nat) : Int :=
  let baseTime : Rat :=
    if fileData.metadata.processingComplexity = Complexity.high then 180
    else if fileData.metadata.processingComplexity = Complexity.medium then 120
    else 90
  let modeMultiplier : Rat := if studyMode = StudyMode.both then 1.5 else 1
  let countMultiplier : Rat := if flashcardCount > 20 then 1.3 else 1
  jsRound (baseTime * modeMultiplier * countMultiplier)

/-- The estimated-time formula in the words of the specification:
`round(baseTime * modeMultiplier * countMultiplier)` where `baseTime` is 180
for `'high'` complexity, 120 for `'medium'` and 90 otherwise, `modeMultiplier`
is 1.5 when the study mode is `'both'` and 1 otherwise, and `countMultiplier`
is 1.3 when the flashcard count exceeds 20 and 1 otherwise. -/
def claimedEstimatedTime (complexity : Complexity) (mode : StudyMode)
    (count : Nat) : Int :=
  let baseTime : Rat :=
    match complexity with
    | Complexity.high => 180
    | Complexity.medium => 120
    | _ => 90
  let modeMultiplier : Rat :=
    match mode with
    | StudyMode.both => 1.5
    | _ => 1
  let countMultiplier : Rat := if count > 20 then 1.3 else 1
  jsRound (baseTime * modeMultiplier * countMultiplier)

/-- **C5.** The configure stage's estimated processing time equals the claimed
formula for every complexity, study mode and flashcard count. -/
theorem getEstimatedTime_matches_formula (fileData : FileData)
    (mode : StudyMode) (count : Nat) :
    getEstimatedTime fileData mode count
      = claimedEstimatedTime fileData.metadata.processingComplexity mode count := by
  obtain ⟨file, ⟨fn, sz, ty, ep, ert, complexity⟩⟩ := fileData
  cases complexity <;> cases mode <;>
    simp [getEstimatedTime, claimedEstimatedTime]

/-! ## Network plumbing shared by UploadPage and ProcessingPage -/

/-- The configuration object passed to `axios.post`: endpoint and timeout. -/
structure AxiosConfig where
  url : String
  timeoutMs : Nat
deriving DecidableEq, Repr

/-- The parts of an axios error inspected by the error handlers:
`error.code`, `error.response?.status`, `error.response?.data?.detail`,
`error.response?.data?.error` and `error.message` (absent paths are `none`). -/
structure AxiosError where
  code : Option String
  responseStatus : Option Int
  responseDetail : Option String
  responseError : Option String
  message : Option String
deriving DecidableEq, Repr

/-- JavaScript truthiness of an optional string (`undefined` and `''` are
falsy). -/
def strTruthy : Option String → Bool
  | some s => decide (s ≠ "")
  | none => false

/-- JavaScript `x || d` for an optional number (`undefined` and `0` are
falsy). -/
def jsOrNat (x : Option Nat) (d : Nat) : Nat :=
  match x with
  | some n => if n = 0 then d else n
  | none => d

/-- JavaScript `x || d` for an optional fractional number. -/
def jsOrRat (x : Option Rat) (d : Rat) : Rat :=
  match x with
  | some q => if q = 0 then d else q
  | none => d

/-- JavaScript `x || d` for an optional string. -/
def jsOrStr (x : Option String) (d : String) : String :=
  match x with
  | some s => if s = "" then d else s
  | none => d

/-- JavaScript `x || []` for an optional array (arrays, even empty ones, are
truthy). -/
def jsOrArr (x : Option (List Flashcard)) : List Flashcard := x.getD []

/-! ## UploadPage (`src/unnamed/part_002`) -/

/-- The metadata object of a successful `/api/upload` response. -/
structure UploadRespMetadata where
  filename : String
  file_size_bytes : Nat
  file_extension : String
  estimated_pages : Nat
  estimated_reading_time : String
  processing_complexity : Complexity
deriving DecidableEq, Repr

/-- Outcome of the awaited upload request. -/
inductive UploadOutcome
  | success (metadata : UploadRespMetadata)
  | failure (e : AxiosError)
deriving DecidableEq, Repr

/-- The `UploadPage` component state relevant to the upload call, together
with the app state it reports into through `onFileUploaded`. -/
structure UploadPageState where
  isUploading : Bool
  uploadError : Option String
  appState : AppState
deriving DecidableEq, Repr

/-- The request configuration of `axios.post('/api/upload', …)` (part_002
line 64): 30-second timeout. -/
def uploadRequestConfig : AxiosConfig :=
  { url := "/api/upload", timeoutMs := 30000 }

/-- The error message chosen by the `catch` block of `handleFileUpload`
(part_002 line 85). -/
def uploadErrorMessage (e : AxiosError) : String :=
  if strTruthy e.responseDetail then e.responseDetail.getD ""
  else if e.code = some "ECONNABORTED" then
    "Upload timed out. Please try a smaller file."
  else "Upload failed. Please try again."

/-- `FileData` built from a successful upload response (part_002 line 72). -/
def fileDataOfResponse (file : FileHandle) (m : UploadRespMetadata) : FileData :=
  { file := file
    metadata :=
      { filename := m.filename
        size := m.file_size_bytes
        type := m.file_extension
        estimatedPages := m.estimated_pages
        estimatedReadingTime := m.estimated_reading_time
        processingComplexity := m.processing_complexity } }

/-- The synchronous prefix of `handleFileUpload`: `setIsUploading(true)` and
`setUploadError(null)` before the request is sent. -/
def uploadBegin (s : UploadPageState) : UploadPageState :=
  { s with isUploading := true, uploadError := none }

/-- The rest of `handleFileUpload` once the request settles: on success the
transformed `FileData` is reported through `onFileUploaded` (the app's
`updateFileData`); on failure the error message is chosen; the `finally` block
clears `isUploading` on every outcome. -/
def uploadFinish (s : UploadPageState) (file : FileHandle)
    (o : UploadOutcome) : UploadPageState :=
  match o with
  | UploadOutcome.success m =>
    let s := { s with
      appState := updateFileData s.appState (fileDataOfResponse file m) }
    { s with isUploading := false }
  | UploadOutcome.failure e =>
    let s := { s with uploadError := some (uploadErrorMessage e) }
    { s with isUploading := false }

/-- `handleFileUpload` (part_002 line 56): the single request it issues and
the state after the outcome settles. -/
def handleFileUpload (s : UploadPageState) (file : FileHandle)
    (o : UploadOutcome) : AxiosConfig × UploadPageState :=
  (uploadRequestConfig, uploadFinish (uploadBegin s) file o)

/-! ## ProcessingPage (`src/frontend/pages/ProcessingPage.tsx`) -/

/-- The fields of the `/process` response read by `handleStartProcessing`. -/
structure ProcessResponse where
  status : String
  flashcards : Option (List Flashcard)
  summary : Option Summary
  processing_time : Option Nat
  confidence : Option Rat
  method : Option String
  error : Option String
deriving DecidableEq, Repr

/-- Outcome of the awaited `/process` request: either a response object or a
thrown axios error (network failure, timeout, non-2xx status). -/
inductive ProcessingOutcome
  | response (r : ProcessResponse)
  | netError (e : AxiosError)
deriving DecidableEq, Repr

/-- The `ProcessingPage` component state together with the app state it
manipulates through `onStartProcessing` / `onProcessingComplete`. -/
structure PPState where
  appState : AppState
  processingStep : String
  processingProgress : Int
  processingError : Option String
deriving DecidableEq, Repr

/-- The request configuration of `axios.post('/process', …)`
(ProcessingPage.tsx line 92): 5-minute timeout. -/
def processRequestConfig : AxiosConfig :=
  { url := "/process", timeoutMs := 300000 }

/-- The `id`s of the four `processingSteps` (ProcessingPage.tsx line 62). -/
def processingStepIds : List String :=
  ["extracting", "analyzing", "generating", "finalizing"]

/-- The error message chosen by the `catch` block of `handleStartProcessing`
(ProcessingPage.tsx line 133). -/
def processErrorMessage (e : AxiosError) : String :=
  if e.code = some "ECONNABORTED" then
    "Processing timed out. Your file may be too large or complex."
  else if e.responseStatus = some 413 then
    "File too large. Please try a smaller file."
  else if e.responseStatus = some 422 then
    "File format not supported or corrupted."
  else if e.responseStatus = some 500 then
    "Server error. Our AI services may be temporarily unavailable."
  else if strTruthy e.responseDetail then e.responseDetail.getD ""
  else if strTruthy e.responseError then e.responseError.getD ""
  else if strTruthy e.message then e.message.getD ""
  else "Processing failed. Please try again."

/-- The `ProcessingResults` assembled from a successful response
(ProcessingPage.tsx line 113); `now` stands for `new Date().toISOString()`. -/
def mkResults (r : ProcessResponse) (now : String) : ProcessingResults :=
  { flashcards := some (jsOrArr r.flashcards)
    summary := r.summary
    processingMetrics :=
      { processingTime := jsOrNat r.processing_time 45
        confidence := jsOrRat r.confidence 0.92
        method := jsOrStr r.method "hybrid" }
    timestamp := now }

/-- The synchronous prefix of `handleStartProcessing`: `onStartProcessing()`
(the app's `startProcessing`, which raises `isProcessing`), clear the error,
phase `'extracting'` at 10%, then phase `'analyzing'` at 25% just before the
request is sent. -/
def processingBegin (s : PPState) : PPState :=
  { appState := startProcessing s.appState
    processingStep := "analyzing"
    processingProgress := 25
    processingError := none }

/-- `handleStartProcessing` (ProcessingPage.tsx line 69), final-state view:
after the begin prefix, a thrown error is caught (message chosen, phase back
to `'ready'`, progress back to 0 — note nothing resets the app's
`isProcessing`); a response with `status === 'success'` walks through
`'generating'` 75% and `'finalizing'` 100% and delivers the results through
`onProcessingComplete`; any other response throws
`new Error(response.data.error || 'Processing failed')` into the same catch
block. -/
def handleStartProcessing (s : PPState) (now : String)
    (o : ProcessingOutcome) : PPState :=
  let s := processingBegin s
  match o with
  | ProcessingOutcome.netError e =>
    { s with
      processingError := some (processErrorMessage e)
      processingStep := "ready"
      processingProgress := 0 }
  | ProcessingOutcome.response r =>
    let s := { s with processingStep := "generating", processingProgress := 75 }
    if r.status = "success" then
      let s := { s with
        processingStep := "finalizing", processingProgress := 100 }
      { s with appState := completeProcessing s.appState (mkResults r now) }
    else
      let e : AxiosError :=
        { code := none, responseStatus := none, responseDetail := none,
          responseError := none,
          message := some (jsOrStr r.error "Processing failed") }
      { s with
        processingError := some (processErrorMessage e)
        processingStep := "ready"
        processingProgress := 0 }

/-- Which of the page's mutually exclusive sections is rendered
(ProcessingPage.tsx line 218): the ternary chain
`!isProcessing && !processingError ? ready : isProcessing ? active :
processingError ? error : null`. -/
inductive ProcessingView
  | ready
  | active
  | failed
  | noView
deriving DecidableEq, Repr

/-- The rendered section as a function of the processing flag and the stored
error. -/
def renderProcessingView (isProcessing : Bool)
    (processingError : Option String) : ProcessingView :=
  if !isProcessing && processingError.isNone then ProcessingView.ready
  else if isProcessing then ProcessingView.active
  else if processingError.isSome then ProcessingView.failed
  else ProcessingView.noView

/-! ## Theorems for claims C4 and C8 -/

/-- The `ProcessingPage` state on arriving at the processing stage with the
demo file and configuration. -/
def demoPPState : PPState :=
  { appState := demoConfiguredState
    processingStep := "ready"
    processingProgress := 0
    processingError := none }

/-- A concrete failed request: HTTP 500 from the processing endpoint. -/
def err500 : AxiosError :=
  { code := none
    responseStatus := some 500
    responseDetail := none
    responseError := none
    message := some "Request failed with status code 500" }

/-- The state after starting processing from `demoPPState` and having the
request fail with HTTP 500. -/
def demoFailedRun : PPState :=
  handleStartProcessing demoPPState "2024-01-01T00:00:00.000Z"
    (ProcessingOutcome.netError err500)

/-- **C4 (code bug).** On a failed processing request the error message is
set, the phase returns to `'ready'`, the progress returns to 0 and the stored
`fileData`, `studyConfig` and `processingResults` are unchanged — but the
processing-in-progress flag is NOT cleared: `startProcessing` raised
`appState.isProcessing` and no code path resets it on failure (only
`completeProcessing` does, on success), so the page keeps rendering the
in-progress section and the error/retry section never appears. -/
theorem processing_failure_keeps_flag :
    demoFailedRun.processingError
        = some "Server error. Our AI services may be temporarily unavailable." ∧
    demoFailedRun.processingStep = "ready" ∧
    demoFailedRun.processingProgress = 0 ∧
    demoFailedRun.appState.fileData = demoPPState.appState.fileData ∧
    demoFailedRun.appState.studyConfig = demoPPState.appState.studyConfig ∧
    demoFailedRun.appState.processingResults
        = demoPPState.appState.processingResults ∧
    demoFailedRun.appState.isProcessing = true ∧
    renderProcessingView demoFailedRun.appState.isProcessing
        demoFailedRun.processingError = ProcessingView.active := by
  exact ⟨rfl, rfl, rfl, rfl, rfl, rfl, rfl, rfl⟩

/-- **C8.** The upload request carries a 30000 ms timeout, `isUploading` is
raised before the request and cleared after every outcome; the processing
request carries a 300000 ms timeout and runs with the `isProcessing` flag
raised through `onStartProcessing`. -/
theorem network_calls_timeout_and_flags (s : UploadPageState)
    (file : FileHandle) (o : UploadOutcome) (p : PPState) :
    (handleFileUpload s file o).1.timeoutMs = 30000 ∧
    (uploadBegin s).isUploading = true ∧
    (handleFileUpload s file o).2.isUploading = false ∧
    processRequestConfig.timeoutMs = 300000 ∧
    (processingBegin p).appState.isProcessing = true := by
  refine ⟨rfl, rfl, ?_, rfl, rfl⟩
  cases o <;> rfl

/-! ## The four-phase progress trace of a successful run (claim C6) -/

/-- `Math.round((progressEvent.loaded * 100) / progressEvent.total)`
(ProcessingPage.tsx line 99). -/
def uploadProgressValue (loaded total : Nat) : Int :=
  jsRound ((loaded : Rat) * 100 / (total : Rat))

/-- `25 + Math.round(uploadProgress * 0.25)` (ProcessingPage.tsx line 100):
the page progress written by one `onUploadProgress` event. -/
def uploadProgressUpdate (loaded total : Nat) : Int :=
  25 + jsRound ((uploadProgressValue loaded total : Rat) * 0.25)

/-- The successive `(processingStep, processingProgress)` pairs written by a
successful run of `handleStartProcessing`: `'extracting'` 10%, `'analyzing'`
25%, the upload progress events (guarded by `if (progressEvent.total)`, which
leave the phase untouched), then `'generating'` 75% and `'finalizing'` 100%. -/
def successTrace (total : Nat) (uploads : List Nat) : List (String × Int) :=
  [("extracting", 10), ("analyzing", 25)]
    ++ (if total ≠ 0 then
          uploads.map fun loaded => ("analyzing", uploadProgressUpdate loaded total)
        else [])
    ++ [("generating", 75), ("finalizing", 100)]

/-- A single upload progress write is monotone in the bytes loaded. -/
theorem uploadProgressUpdate_mono {l₁ l₂ : Nat} (total : Nat)
    (h : l₁ ≤ l₂) :
    uploadProgressUpdate l₁ total ≤ uploadProgressUpdate l₂ total := by
  have h1 : ((l₁ : Rat) * 100) / total ≤ ((l₂ : Rat) * 100) / total := by
    gcongr
  have h2 : uploadProgressValue l₁ total ≤ uploadProgressValue l₂ total :=
    jsRound_mono h1
  have h3 : ((uploadProgressValue l₁ total : Rat)) * 0.25
      ≤ ((uploadProgressValue l₂ total : Rat)) * 0.25 :=
    mul_le_mul_of_nonneg_right (by exact_mod_cast h2) (by norm_num)
  have := jsRound_mono h3
  simp only [uploadProgressUpdate]
  omega

/-- Every upload progress write is at least 25. -/
theorem uploadProgressUpdate_lb (l t : Nat) : 25 ≤ uploadProgressUpdate l t := by
  have h0 : 0 ≤ uploadProgressValue l t := by
    rw [uploadProgressValue, jsRound_eq_floor]
    apply Int.le_floor.mpr
    have : (0 : Rat) ≤ (l : Rat) * 100 / (t : Rat) := by positivity
    push_cast
    linarith
  have h1 : 0 ≤ jsRound ((uploadProgressValue l t : Rat) * 0.25) := by
    rw [jsRound_eq_floor]
    apply Int.le_floor.mpr
    have hv : (0 : Rat) ≤ (uploadProgressValue l t : Rat) := by exact_mod_cast h0
    have := mul_nonneg hv (by norm_num : (0 : Rat) ≤ 0.25)
    push_cast
    linarith
  simp only [uploadProgressUpdate]
  omega

/-- With `loaded ≤ total` and a positive total, every upload progress write is
at most 50. -/
theorem uploadProgressUpdate_ub (l t : Nat) (ht : 0 < t) (h : l ≤ t) :
    uploadProgressUpdate l t ≤ 50 := by
  have htq : (0 : Rat) < (t : Rat) := by exact_mod_cast ht
  have h100 : uploadProgressValue l t ≤ 100 := by
    have hr : ((l : Rat) * 100) / t ≤ 100 := by
      rw [div_le_iff₀ htq]
      have : (l : Rat) ≤ (t : Rat) := by exact_mod_cast h
      nlinarith
    calc uploadProgressValue l t ≤ jsRound 100 := jsRound_mono hr
      _ = 100 := by
        rw [jsRound_eq_floor, Int.floor_eq_iff]
        norm_num
  have h25 : jsRound ((uploadProgressValue l t : Rat) * 0.25) ≤ 25 := by
    have hv : (uploadProgressValue l t : Rat) ≤ 100 := by exact_mod_cast h100
    have hm : (uploadProgressValue l t : Rat) * 0.25 ≤ 25 := by nlinarith
    calc jsRound _ ≤ jsRound 25 := jsRound_mono hm
      _ = 25 := by
        rw [jsRound_eq_floor, Int.floor_eq_iff]
        norm_num
  simp only [uploadProgressUpdate]
  omega

/-- A nondecreasing list bounded by `b`, extended by a nondecreasing tail
starting at `b`, stays nondecreasing. -/
theorem chain'_le_append {b : Int} :
    ∀ (l : List Int), List.Chain' (· ≤ ·) l → (∀ x ∈ l, x ≤ b) →
      ∀ (r : List Int), List.Chain' (· ≤ ·) (b :: r) →
      List.Chain' (· ≤ ·) (l ++ b :: r)
  | [], _, _, r, hr => by simpa using hr
  | [x], _, hub, r, hr => by
    rw [List.singleton_append, List.chain'_cons]
    exact ⟨hub x (by simp), hr⟩
  | x :: y :: l, hchain, hub, r, hr => by
    rw [List.cons_append, List.chain'_cons']
    refine ⟨?_, chain'_le_append (y :: l) (List.chain'_cons.mp hchain).2
      (fun z hz => hub z (List.mem_cons_of_mem x hz)) r hr⟩
    intro z hz
    rw [List.cons_append, List.head?_cons, Option.mem_def,
      Option.some.injEq] at hz
    exact hz ▸ (List.chain'_cons.mp hchain).1

/-- Collapsing a run of repeated `'analyzing'` writes before the
`'generating'` and `'finalizing'` phases. -/
theorem destutter_analyzing_run :
    ∀ (ss : List String), (∀ x ∈ ss, x = "analyzing") →
      List.destutter' (· ≠ ·) "analyzing" (ss ++ ["generating", "finalizing"])
        = ["analyzing", "generating", "finalizing"]
  | [], _ => by decide
  | s :: ss, h => by
    have hs : s = "analyzing" := h s (by simp)
    subst hs
    rw [List.cons_append, List.destutter'_cons, if_neg (by decide)]
    exact destutter_analyzing_run ss fun x hx => h x (List.mem_cons_of_mem _ hx)

/-- **C6.** During every successful processing run, the phase indicator passes
through exactly `'extracting'`, `'analyzing'`, `'generating'`, `'finalizing'`
in that order, and the progress percentage never decreases, starting from 0,
through the initial 10, up to 100 — for any nondecreasing sequence of upload
progress events bounded by the total. -/
theorem processing_success_phases_and_progress (total : Nat)
    (uploads : List Nat) (ht : 0 < total)
    (hchain : List.Chain' (· ≤ ·) uploads)
    (hub : ∀ u ∈ uploads, u ≤ total) :
    ((successTrace total uploads).map Prod.fst).destutter (· ≠ ·)
      = ["extracting", "analyzing", "generating", "finalizing"] ∧
    List.Chain' (· ≤ ·)
      ((0 : Int) :: (successTrace total uploads).map Prod.snd) := by
  have htne : total ≠ 0 := Nat.pos_iff_ne_zero.mp ht
  constructor
  · have hsplit : (successTrace total uploads).map Prod.fst
        = "extracting" :: "analyzing" ::
          ((uploads.map fun loaded =>
              ("analyzing", uploadProgressUpdate loaded total)).map Prod.fst
            ++ ["generating", "finalizing"]) := by
      rw [successTrace, if_pos htne]
      simp [List.map_append]
    have hall : ∀ x ∈ (uploads.map fun loaded =>
        ("analyzing", uploadProgressUpdate loaded total)).map Prod.fst,
        x = "analyzing" := by
      intro x hx
      obtain ⟨p, hp, rfl⟩ := List.mem_map.mp hx
      obtain ⟨u, _, rfl⟩ := List.mem_map.mp hp
      rfl
    rw [hsplit, List.destutter_cons', List.destutter'_cons,
      if_pos (by decide), destutter_analyzing_run _ hall]
  · have hsplit : (successTrace total uploads).map Prod.snd
        = 10 :: 25 ::
          ((uploads.map fun loaded =>
              ("analyzing", uploadProgressUpdate loaded total)).map Prod.snd
            ++ [(75 : Int), 100]) := by
      rw [successTrace, if_pos htne]
      simp [List.map_append]
    rw [hsplit]
    have hM : List.Chain' (· ≤ ·) ((uploads.map fun loaded =>
        ("analyzing", uploadProgressUpdate loaded total)).map Prod.snd) :=
      (List.chain'_map _).mpr ((List.chain'_map _).mpr
        (hchain.imp fun a b hab => uploadProgressUpdate_mono total hab))
    have hMub : ∀ x ∈ (uploads.map fun loaded =>
        ("analyzing", uploadProgressUpdate loaded total)).map Prod.snd,
        x ≤ 75 := by
      intro x hx
      obtain ⟨p, hp, rfl⟩ := List.mem_map.mp hx
      obtain ⟨u, hu, rfl⟩ := List.mem_map.mp hp
      have := uploadProgressUpdate_ub u total ht (hub u hu)
      simp only []
      omega
    have h75100 : List.Chain' (· ≤ ·) ((75 : Int) :: [100]) := by
      rw [List.chain'_cons]
      exact ⟨by norm_num, List.chain'_singleton _⟩
    have happ : List.Chain' (· ≤ ·)
        ((uploads.map fun loaded =>
            ("analyzing", uploadProgressUpdate loaded total)).map Prod.snd
          ++ (75 : Int) :: [100]) :=
      chain'_le_append _ hM hMub _ h75100
    have h25 : List.Chain' (· ≤ ·)
        ((25 : Int) :: ((uploads.map fun loaded =>
            ("analyzing", uploadProgressUpdate loaded total)).map Prod.snd
          ++ (75 : Int) :: [100])) := by
      rw [List.chain'_cons']
      refine ⟨?_, happ⟩
      intro y hy
      cases hu : uploads with
      | nil =>
        rw [hu] at hy
        simp at hy
        omega
      | cons u us =>
        rw [hu] at hy
        simp only [List.map_cons, List.cons_append, List.head?_cons,
          Option.mem_def, Option.some.injEq] at hy
        have := uploadProgressUpdate_lb u total
        omega
    rw [List.chain'_cons, List.chain'_cons]
    exact ⟨by norm_num, by norm_num, h25⟩

/-- Witness for C6: a run with total 200 bytes and upload events at 50, 100
and 200 bytes. -/
theorem processing_success_phases_and_progress_witness :
    ((successTrace 200 [50, 100, 200]).map Prod.fst).destutter (· ≠ ·)
      = ["extracting", "analyzing", "generating", "finalizing"] ∧
    List.Chain' (· ≤ ·)
      ((0 : Int) :: (successTrace 200 [50, 100, 200]).map Prod.snd) :=
  processing_success_phases_and_progress 200 [50, 100, 200]
    (by norm_num)
    (by rw [List.chain'_cons, List.chain'_cons]
        exact ⟨by norm_num, by norm_num, List.chain'_singleton _⟩)
    (by intro u hu; simp at hu; rcases hu with h | h | h <;> omega)

end Scribbly
